import Mathlib

/-!
Verification of the devbot attachment-transformation pipeline
(`validateFiles` / `processFile` / `processFiles` / `downloadFile` /
`deleteSrc` in the slack event package, and `SlackClient.request` in
`internal/client/slack.go`).

The Go code is shallowly embedded: the filesystem is a set of path
strings, external outcomes (transport success, unzip success, the
transform program's exit status, archive-write success, upload success,
directory-removal success) are supplied by a `PipelineEnv` record, and
each externally visible call the pipeline makes is recorded as an
`Event` in a trace, in program order.
-/

namespace Devbot

/-- Attachment descriptor (the fields of `dto.File` the pipeline reads). -/
structure File where
  id : String
  urlPrivate : String
  filetype : String
deriving Repr, DecidableEq

/-- The incoming message: owning channel plus the ordered attachment list. -/
structure SlackResponseEventMessage where
  channel : String
  files : List File
deriving Repr, DecidableEq

/-- `const zipFileType = "zip"`. -/
def zipFileType : String := "zip"

/-- `const defaultResultFilename = "result.zip"`. -/
def defaultResultFilename : String := "result.zip"

/-- The Go map `supportedFileTypes` as a lookup returning `""` for an
absent key, exactly as Go map indexing does. -/
def supportedFileTypes (t : String) : String :=
  if t == zipFileType then zipFileType else ""

/-- `isValidFile`: `supportedFileTypes[fileType] != ""`. -/
def isValidFile (fileType : String) : Bool :=
  supportedFileTypes fileType != ""

/-- The error message built by `validateFiles`. -/
def wrongFileTypeMessage : String := "Wrong file type "

/-- `validateFiles`: loop over the files, returning the first file whose
type fails `isValidFile` together with an error; `(dto.File{}, nil)`
when the loop completes. -/
def validateFiles : List File → File × Option String
  | [] => (⟨"", "", ""⟩, none)
  | file :: rest =>
    if !isValidFile file.filetype then (file, some wrongFileTypeMessage)
    else validateFiles rest

/-- Byte-level `strings.HasPrefix`, via the character lists. -/
def strStartsWith (pre s : String) : Bool :=
  pre.toList.isPrefixOf s.toList

/-- `p` is the path `root` itself or lies strictly inside the subtree
rooted at `root` (has `root ++ "/"` as a path segment boundary). This is
the set of paths `os.RemoveAll(root)` deletes. -/
def underOrEqual (root p : String) : Bool :=
  p == root || strStartsWith (root ++ "/") p

/-- The filesystem, as the set (list) of existing paths. -/
structure FS where
  paths : List String
deriving Repr, DecidableEq

/-- Creating a file or directory. -/
def FS.add (fs : FS) (p : String) : FS := ⟨p :: fs.paths⟩

/-- Creating several files at once. -/
def FS.addAll (fs : FS) (ps : List String) : FS := ⟨ps ++ fs.paths⟩

/-- `deleteSrc(src)` = `os.RemoveAll(src)`: recursively delete `src`. -/
def deleteSrc (fs : FS) (src : String) : FS :=
  ⟨fs.paths.filter (fun p => !underOrEqual src p)⟩

/-- One externally visible call made by the pipeline, in program order. -/
inductive Event where
  | download (url : String)
  | unzip (zipPath dest : String)
  | transform (path : String)
  | removeSubtree (path : String)
  | buildArchive (dir out : String) (contents : List String)
  | upload (channel path name : String)
  | teardown (path : String)
deriving Repr, DecidableEq

/-- The error a stage of the pipeline reports (Go returns opaque
`error` values; we keep the stage that produced it). -/
inductive PipelineError where
  | validationError
  | downloadError
  | unzipError
  | transformError (status : Nat)
  | removeSubtreeError
  | packagingError
  | uploadError
  | cleanupError
deriving Repr, DecidableEq

/-- Outcomes of the external world for one attachment's run: whether the
transport/temp-file steps succeed, the random part of the temp-file
name, whether unzip succeeds and which entries it extracts, the
transform program's exit status and the output subtrees it writes, and
whether each later filesystem/network call succeeds. -/
structure PipelineEnv where
  downloadOk : Bool
  tmpSuffix : String
  unzipOk : Bool
  archiveEntries : List String
  transformStatus : Nat
  transformOutputs : List String
  removeSubtreeOk : Bool
  zipOk : Bool
  uploadOk : Bool
  teardownOk : Bool
deriving Repr, DecidableEq

/-- `os.TempDir()` on the target platform. -/
def tempDir : String := "/tmp"

/-- The name `ioutil.TempFile(os.TempDir(), "devbot-*.zip")` produces. -/
def tmpNameOf (env : PipelineEnv) : String :=
  tempDir ++ "/devbot-" ++ env.tmpSuffix ++ ".zip"

/-- `src := os.TempDir() + file.ID` (note: no separator, as in the source). -/
def srcOf (file : File) : String := tempDir ++ file.id

/-- `pathToFiles := src + "/downloaded_template"`. -/
def pathToFilesOf (file : File) : String := srcOf file ++ "/downloaded_template"

/-- `resultFilePath := src + "/result.zip"`. -/
def resultFilePathOf (file : File) : String :=
  srcOf file ++ "/" ++ defaultResultFilename

/-- `downloadFile`: issue the GET request, create the temp file, write
the body. On success the temp file exists and its handle (name) is
returned; any transport or temp-file failure yields an error. The
request itself is recorded as a `download` event. -/
def downloadFile (url : String) (env : PipelineEnv) (fs : FS) :
    Option String × List Event × FS :=
  if env.downloadOk then
    (some (tmpNameOf env), [Event.download url], fs.add (tmpNameOf env))
  else (none, [Event.download url], fs)

/-- Filesystem state after `helper.Unzip(tmpFile.Name(), pathToFiles)`
succeeds: the staging root, the extracted subtree and its entries exist. -/
def fsPostUnzip (file : File) (env : PipelineEnv) (fs1 : FS) : FS :=
  ((fs1.add (srcOf file)).add (pathToFilesOf file)).addAll
    (env.archiveEntries.map (fun e => pathToFilesOf file ++ "/" ++ e))

/-- Filesystem state after the transform program exits 0: it has written
its output subtrees next to the extracted input, under the staging root. -/
def fsPostTransform (file : File) (env : PipelineEnv) (fs1 : FS) : FS :=
  (fsPostUnzip file env fs1).addAll
    (env.transformOutputs.map (fun o => srcOf file ++ "/" ++ o))

/-- Filesystem state after `deleteSrc(pathToFiles)`. -/
def fsPostRemove (file : File) (env : PipelineEnv) (fs1 : FS) : FS :=
  deleteSrc (fsPostTransform file env fs1) (pathToFilesOf file)

/-- The entries `helper.Zip(src, resultFilePath)` packs: every existing
path strictly inside the staging root at the moment it runs. -/
def archiveContents (file : File) (env : PipelineEnv) (fs1 : FS) : List String :=
  (fsPostRemove file env fs1).paths.filter
    (fun p => strStartsWith (srcOf file ++ "/") p)

/-- `processFile`: download, unzip into `pathToFiles`, run the external
transform, remove the extracted subtree, zip the staging root, upload
the result, tear the staging root down, in the source's order, returning
at the first failing stage exactly where the Go code returns. -/
def processFile (channel : String) (file : File) (env : PipelineEnv) (fs : FS) :
    (File × Option PipelineError) × List Event × FS :=
  match downloadFile file.urlPrivate env fs with
  | (none, ev0, fs1) =>
    ((file, some PipelineError.downloadError), ev0, fs1)
  | (some tmp, ev0, fs1) =>
    let ev1 := ev0 ++ [Event.unzip tmp (pathToFilesOf file)]
    if !env.unzipOk then ((file, some PipelineError.unzipError), ev1, fs1)
    else
      let fs2 := fsPostUnzip file env fs1
      let ev2 := ev1 ++ [Event.transform (pathToFilesOf file)]
      if env.transformStatus ≠ 0 then
        ((file, some (PipelineError.transformError env.transformStatus)), ev2, fs2)
      else
        let fs3 := fsPostTransform file env fs1
        let ev3 := ev2 ++ [Event.removeSubtree (pathToFilesOf file)]
        if !env.removeSubtreeOk then
          ((file, some PipelineError.removeSubtreeError), ev3, fs3)
        else
          let fs4 := fsPostRemove file env fs1
          let ev4 := ev3 ++ [Event.buildArchive (srcOf file) (resultFilePathOf file)
            (archiveContents file env fs1)]
          if !env.zipOk then ((file, some PipelineError.packagingError), ev4, fs4)
          else
            let fs5 := fs4.add (resultFilePathOf file)
            let ev5 := ev4 ++ [Event.upload channel (resultFilePathOf file) defaultResultFilename]
            if !env.uploadOk then ((file, some PipelineError.uploadError), ev5, fs5)
            else
              let ev6 := ev5 ++ [Event.teardown (srcOf file)]
              if !env.teardownOk then ((file, some PipelineError.cleanupError), ev6, fs5)
              else ((file, none), ev6, deleteSrc fs5 (srcOf file))

/-- The `for _, fileReceived := range message.Files` loop of
`processFiles`: run each attachment in order, stopping at the first
error. Each attachment's external outcomes are paired with it. -/
def processFilesLoop (channel : String) :
    List (File × PipelineEnv) → FS → (File × Option PipelineError) × List Event × FS
  | [], fs => ((⟨"", "", ""⟩, none), [], fs)
  | p :: rest, fs =>
    match processFile channel p.1 p.2 fs with
    | ((file, some e), ev, fs1) => ((file, some e), ev, fs1)
    | ((_, none), ev, fs1) =>
      let next := processFilesLoop channel rest fs1
      (next.1, ev ++ next.2.1, next.2.2)

/-- `processFiles`: validate the whole batch first; on a validation
failure return immediately (no attachment is touched), else run the
per-attachment loop. -/
def processFiles (message : SlackResponseEventMessage) (envs : List PipelineEnv) (fs : FS) :
    (File × Option PipelineError) × List Event × FS :=
  match validateFiles message.files with
  | (file, some _) => ((file, some PipelineError.validationError), [], fs)
  | (_, none) => processFilesLoop message.channel (message.files.zip envs) fs

/-- The upload calls in a trace, in order. -/
def uploadEvents (tr : List Event) : List Event :=
  tr.filter fun e => match e with | Event.upload _ _ _ => true | _ => false

/-- The archive-build calls in a trace, in order. -/
def buildEvents (tr : List Event) : List Event :=
  tr.filter fun e => match e with | Event.buildArchive _ _ _ => true | _ => false

/-- The staging-root teardown calls in a trace, in order. -/
def teardownEvents (tr : List Event) : List Event :=
  tr.filter fun e => match e with | Event.teardown _ => true | _ => false

/-- The upload call `processFile` makes for `file`:
`AttachFileTo(channel, resultFilePath, defaultResultFilename)`. -/
def uploadEvent (channel : String) (file : File) : Event :=
  Event.upload channel (resultFilePathOf file) defaultResultFilename

/-- The pipeline reaches the upload call for this attachment: every
stage before `AttachFileTo` succeeded. -/
def reachesUpload (env : PipelineEnv) : Bool :=
  env.downloadOk && env.unzipOk && (env.transformStatus == 0)
    && env.removeSubtreeOk && env.zipOk

/-- `processFile` returns nil error with these outcomes. -/
def envSucceeds (env : PipelineEnv) : Bool :=
  reachesUpload env && env.uploadOk && env.teardownOk

/-- The error `processFile` returns, as a function of the stage outcomes. -/
def stageError (env : PipelineEnv) : Option PipelineError :=
  if !env.downloadOk then some PipelineError.downloadError
  else if !env.unzipOk then some PipelineError.unzipError
  else if env.transformStatus ≠ 0 then some (PipelineError.transformError env.transformStatus)
  else if !env.removeSubtreeOk then some PipelineError.removeSubtreeError
  else if !env.zipOk then some PipelineError.packagingError
  else if !env.uploadOk then some PipelineError.uploadError
  else if !env.teardownOk then some PipelineError.cleanupError
  else none

/-! ### Helper lemmas -/

lemma mem_deleteSrc {fs : FS} {src p : String} :
    p ∈ (deleteSrc fs src).paths ↔ p ∈ fs.paths ∧ underOrEqual src p = false := by
  simp [deleteSrc, List.mem_filter]

lemma mem_add {fs : FS} {q p : String} :
    p ∈ (fs.add q).paths ↔ p = q ∨ p ∈ fs.paths := by
  simp [FS.add]

lemma mem_addAll {fs : FS} {qs : List String} {p : String} :
    p ∈ (fs.addAll qs).paths ↔ p ∈ qs ∨ p ∈ fs.paths := by
  simp [FS.addAll]

lemma validateFiles_find (files : List File) :
    validateFiles files =
      match files.find? (fun f => !isValidFile f.filetype) with
      | some f => (f, some wrongFileTypeMessage)
      | none => (⟨"", "", ""⟩, none) := by
  induction files with
  | nil => rfl
  | cons f fs ih =>
    cases h : isValidFile f.filetype with
    | false => simp [validateFiles, List.find?, h]
    | true => simp [validateFiles, List.find?, h, ih]

lemma envSucceeds_flags {env : PipelineEnv} (h : envSucceeds env = true) :
    env.downloadOk = true ∧ env.unzipOk = true ∧ env.transformStatus = 0 ∧
    env.removeSubtreeOk = true ∧ env.zipOk = true ∧ env.uploadOk = true ∧
    env.teardownOk = true := by
  simp only [envSucceeds, reachesUpload, Bool.and_eq_true, beq_iff_eq] at h
  tauto

lemma stageError_eq_none {env : PipelineEnv} :
    stageError env = none ↔ envSucceeds env = true := by
  cases hd : env.downloadOk <;> cases hu : env.unzipOk <;>
    cases hr : env.removeSubtreeOk <;> cases hz : env.zipOk <;>
    cases hup : env.uploadOk <;> cases htd : env.teardownOk <;>
    by_cases ht : env.transformStatus = 0 <;>
    simp [stageError, envSucceeds, reachesUpload, hd, hu, hr, hz, hup, htd, ht]

lemma processFile_fst (channel : String) (file : File) (env : PipelineEnv) (fs : FS) :
    (processFile channel file env fs).1 = (file, stageError env) := by
  cases hd : env.downloadOk <;> cases hu : env.unzipOk <;>
    cases hr : env.removeSubtreeOk <;> cases hz : env.zipOk <;>
    cases hup : env.uploadOk <;> cases htd : env.teardownOk <;>
    by_cases ht : env.transformStatus = 0 <;>
    simp [processFile, downloadFile, stageError, hd, hu, hr, hz, hup, htd, ht]

lemma processFile_uploadEvents (channel : String) (file : File) (env : PipelineEnv) (fs : FS) :
    uploadEvents (processFile channel file env fs).2.1 =
      if reachesUpload env = true then [uploadEvent channel file] else [] := by
  cases hd : env.downloadOk <;> cases hu : env.unzipOk <;>
    cases hr : env.removeSubtreeOk <;> cases hz : env.zipOk <;>
    cases hup : env.uploadOk <;> cases htd : env.teardownOk <;>
    by_cases ht : env.transformStatus = 0 <;>
    simp [processFile, downloadFile, uploadEvents, uploadEvent, reachesUpload,
      hd, hu, hr, hz, hup, htd, ht, List.filter]

lemma uploadEvents_append (a b : List Event) :
    uploadEvents (a ++ b) = uploadEvents a ++ uploadEvents b := by
  simp [uploadEvents, List.filter_append]

/-! ### The HTTP client (`SlackClient.request`, internal/client/slack.go) -/

/-- What the outside world does to one `request` round trip:
`http.NewRequest` fails, `client.Client.Do` yields no response,
`ioutil.ReadAll` on the body fails, or a response with a body and a
status code is received. -/
inductive HttpOutcome where
  | requestGenError
  | noResponse
  | bodyReadError (bodySoFar : String)
  | response (respBody : String) (statusCode : Nat)
deriving Repr, DecidableEq

/-- The client's configuration fields (they do not affect the
error/status outcome). -/
structure SlackClient where
  baseURL : String
  oauthToken : String
deriving Repr, DecidableEq

/-- `SlackClient.request`: returns `(body, statusCode, error)` following
the source's branches in order; `http.StatusBadRequest = 400`. -/
def SlackClient.request (client : SlackClient) (method endpoint reqBody : String)
    (out : HttpOutcome) : Option String × Nat × Option String :=
  match client, method, endpoint, reqBody, out with
  | _, _, _, _, HttpOutcome.requestGenError =>
    (none, 0, some "Error during the request generation")
  | _, _, _, _, HttpOutcome.noResponse => (none, 0, some "Response cannot be null ")
  | _, _, _, _, HttpOutcome.bodyReadError bodySoFar =>
    (some bodySoFar, 0, some "Error during response body parse")
  | _, _, _, _, HttpOutcome.response respBody statusCode =>
    if 400 ≤ statusCode then
      (some respBody, statusCode, some ("Bad status code received: " ++ toString statusCode ++ " "))
    else (some respBody, statusCode, none)

/-- The transport collaborator itself failed (no usable response body
was obtained from the wire). -/
def isTransportFailure : HttpOutcome → Bool
  | HttpOutcome.response _ _ => false
  | _ => true

/-- The status code of the received response (`0` when none was received,
as the source returns). -/
def receivedStatus : HttpOutcome → Nat
  | HttpOutcome.response _ s => s
  | _ => 0

/-! ### Claim theorems -/

/-- Claim C6: `validateFiles` returns the first attachment (in list
order) whose declared type is absent from the registered supported-type
set together with a validation error, and returns no error with a
zero-value attachment when every type is supported. -/
theorem c6_validateFiles_first_invalid (files : List File) :
    validateFiles files =
      match files.find? (fun f => !isValidFile f.filetype) with
      | some f => (f, some wrongFileTypeMessage)
      | none => (⟨"", "", ""⟩, none) :=
  validateFiles_find files

/-- Claim C7: a batch containing an attachment of unsupported type fails
at validation and produces an empty event trace — no attachment is
downloaded or otherwise processed, including the well-typed ones. -/
theorem c7_fail_fast (message : SlackResponseEventMessage) (envs : List PipelineEnv)
    (fs : FS) (h : ∃ f ∈ message.files, isValidFile f.filetype = false) :
    (processFiles message envs fs).1.2 = some PipelineError.validationError ∧
    (processFiles message envs fs).2.1 = [] := by
  obtain ⟨f0, hmem, hf0⟩ := h
  have hsome : (message.files.find? (fun f => !isValidFile f.filetype)).isSome := by
    rw [List.find?_isSome]
    exact ⟨f0, hmem, by simp [hf0]⟩
  obtain ⟨f1, hf1⟩ := Option.isSome_iff_exists.mp hsome
  have hv := validateFiles_find message.files
  rw [hf1] at hv
  constructor <;> simp [processFiles, hv]

/-- The empty filesystem. -/
def fs0 : FS := ⟨[]⟩

/-- A two-attachment message whose second attachment has an unsupported
type. -/
def c7Msg : SlackResponseEventMessage :=
  ⟨"C", [⟨"A", "http://x/a.zip", "zip"⟩, ⟨"B", "http://x/b.png", "png"⟩]⟩

/-- Witness for C7 at a concrete batch. -/
theorem c7_witness :
    (processFiles c7Msg [] fs0).1.2 = some PipelineError.validationError ∧
    (processFiles c7Msg [] fs0).2.1 = [] :=
  c7_fail_fast c7Msg [] fs0 ⟨⟨"B", "http://x/b.png", "png"⟩, by decide, by decide⟩

/-- Claim C9: `SlackClient.request` returns a non-nil error exactly when
the transport itself fails (request generation, nil response, or body
read) or the received status code is at least 400. -/
theorem c9_request_error_iff (client : SlackClient) (method endpoint reqBody : String)
    (out : HttpOutcome) :
    ((client.request method endpoint reqBody out).2.2).isSome = true ↔
      (isTransportFailure out = true ∨ 400 ≤ receivedStatus out) := by
  cases out with
  | requestGenError => simp [SlackClient.request, isTransportFailure, receivedStatus]
  | noResponse => simp [SlackClient.request, isTransportFailure, receivedStatus]
  | bodyReadError b => simp [SlackClient.request, isTransportFailure, receivedStatus]
  | response b s =>
    by_cases hs : 400 ≤ s <;>
      simp [SlackClient.request, isTransportFailure, receivedStatus, hs]

/-- Claim C4: when the transform program exits with a nonzero status (on
an attachment whose download and extraction succeeded), `processFile`
returns the transform error carrying that status and makes no
archive-build and no upload call; moreover an upload call implies the
transform exited with status zero. -/
theorem c4_transform_failure (channel : String) (file : File) (env : PipelineEnv) (fs : FS) :
    (env.downloadOk = true → env.unzipOk = true → env.transformStatus ≠ 0 →
      (processFile channel file env fs).1.2 =
        some (PipelineError.transformError env.transformStatus) ∧
      buildEvents (processFile channel file env fs).2.1 = [] ∧
      uploadEvents (processFile channel file env fs).2.1 = []) ∧
    (uploadEvents (processFile channel file env fs).2.1 ≠ [] → env.transformStatus = 0) := by
  constructor
  · intro hd hu ht
    refine ⟨?_, ?_, ?_⟩ <;>
      simp [processFile, downloadFile, buildEvents, uploadEvents, hd, hu, ht, List.filter]
  · intro hne
    by_contra ht
    have hf : (env.transformStatus == 0) = false := by simpa using ht
    have hru : reachesUpload env = false := by simp [reachesUpload, hf]
    rw [processFile_uploadEvents, hru] at hne
    simp at hne

/-- An attachment whose transform exits with status 2. -/
def c4File : File := ⟨"F4", "http://x/a.zip", "zip"⟩

/-- Outcomes where everything up to the transform succeeds and the
transform exits 2. -/
def c4Env : PipelineEnv := ⟨true, "w4", true, ["index.html"], 2, [], true, true, true, true⟩

/-- Witness for C4 at a concrete run. -/
theorem c4_witness :
    (processFile "C" c4File c4Env fs0).1.2 = some (PipelineError.transformError 2) ∧
    uploadEvents (processFile "C" c4File c4Env fs0).2.1 = [] := by
  have h := (c4_transform_failure "C" c4File c4Env fs0).1 rfl rfl (by decide)
  exact ⟨h.1, h.2.2⟩

/-- The attachment of the C1 failing input. -/
def c1File : File := ⟨"F1", "http://x/a.zip", "zip"⟩

/-- Outcomes of the C1 failing input: download and unzip succeed (the
staging root is created), then the transform exits 2. -/
def c1Env : PipelineEnv := ⟨true, "a1", true, ["index.html"], 2, [], true, true, true, true⟩

/-- Claim C1 (code bug): at this input the unzip step created the
staging root for the attachment, the transform then failed, and
`processFile` returned without ever invoking the staging-root teardown —
the staging root is still on disk afterwards. The claim requires exactly
one teardown invocation for every attachment that reached staging-area
creation, regardless of outcome. -/
theorem c1_teardown_skipped_on_failure :
    c1Env.unzipOk = true ∧
    (processFile "C" c1File c1Env fs0).1.2 = some (PipelineError.transformError 2) ∧
    teardownEvents (processFile "C" c1File c1Env fs0).2.1 = [] ∧
    srcOf c1File ∈ ((processFile "C" c1File c1Env fs0).2.2).paths := by
  refine ⟨rfl, rfl, rfl, ?_⟩
  decide

lemma processFilesLoop_uploadEvents (channel : String)
    (pairs : List (File × PipelineEnv)) (fs : FS) :
    uploadEvents (processFilesLoop channel pairs fs).2.1 =
      (pairs.takeWhile (fun p => envSucceeds p.2)).map
        (fun p => uploadEvent channel p.1) ++
      (match pairs.dropWhile (fun p => envSucceeds p.2) with
       | [] => []
       | p :: _ =>
         if reachesUpload p.2 = true then [uploadEvent channel p.1] else []) := by
  induction pairs generalizing fs with
  | nil => simp [processFilesLoop, uploadEvents]
  | cons hd tl ih =>
    obtain ⟨f, env⟩ := hd
    have hfst := processFile_fst channel f env fs
    have htr := processFile_uploadEvents channel f env fs
    rcases hpr : processFile channel f env fs with ⟨⟨a, b⟩, tr, fs1⟩
    rw [hpr] at hfst htr
    simp only [Prod.mk.injEq] at hfst
    obtain ⟨ha, hb⟩ := hfst
    by_cases hs : envSucceeds env = true
    · have hbnone : b = none := by rw [hb]; exact stageError_eq_none.mpr hs
      have hru : reachesUpload env = true := by
        obtain ⟨h1, h2, h3, h4, h5, _, _⟩ := envSucceeds_flags hs
        simp [reachesUpload, h1, h2, h3, h4, h5]
      subst hbnone
      rw [hru] at htr
      simp only [if_true] at htr
      simp only [processFilesLoop, hpr]
      rw [uploadEvents_append, htr, ih fs1]
      simp [List.takeWhile_cons, List.dropWhile_cons, hs]
    · have hbsome : b = stageError env := hb
      have hnn : stageError env ≠ none := fun hc => hs (stageError_eq_none.mp hc)
      cases hbv : stageError env with
      | none => exact absurd hbv hnn
      | some e =>
        rw [hbv] at hbsome
        subst hbsome
        simp only [processFilesLoop, hpr]
        rw [htr]
        simp [List.takeWhile_cons, List.dropWhile_cons, hs]

/-- Claim C3 (amended): for a batch of only supported-type attachments,
the upload calls are exactly one per attachment in the batch's original
order up to but excluding the first attachment whose run fails, plus one
for the failing attachment itself exactly when its run reached the
upload call (that is, when it failed at the upload itself or at the
final staging-root cleanup after its upload); no attachment after the
failing one incurs an upload call. -/
theorem c3_upload_order (message : SlackResponseEventMessage) (envs : List PipelineEnv)
    (fs : FS) (hvalid : ∀ f ∈ message.files, isValidFile f.filetype = true) :
    uploadEvents (processFiles message envs fs).2.1 =
      ((message.files.zip envs).takeWhile (fun p => envSucceeds p.2)).map
        (fun p => uploadEvent message.channel p.1) ++
      (match (message.files.zip envs).dropWhile (fun p => envSucceeds p.2) with
       | [] => []
       | p :: _ =>
         if reachesUpload p.2 = true then [uploadEvent message.channel p.1] else []) := by
  have hfind : message.files.find? (fun f => !isValidFile f.filetype) = none := by
    rw [List.find?_eq_none]
    intro f hf
    simp [hvalid f hf]
  have hv := validateFiles_find message.files
  rw [hfind] at hv
  simp only [processFiles, hv]
  exact processFilesLoop_uploadEvents message.channel (message.files.zip envs) fs

/-- The attachment of the C3 counterexample. -/
def c3File : File := ⟨"F3", "http://x/a.zip", "zip"⟩

/-- Outcomes where every stage succeeds except the final staging-root
cleanup (`os.RemoveAll` fails after a successful upload). -/
def c3EnvCleanupFail : PipelineEnv := ⟨true, "r3", true, [], 0, [], true, true, true, false⟩

/-- The one-attachment batch of the C3 counterexample. -/
def c3Msg : SlackResponseEventMessage := ⟨"C", [c3File]⟩

/-- Claim C3 counterexample: a one-attachment batch whose attachment
fails at the final staging-root cleanup. Processing fails and the
failing attachment is the one at index 0, yet its upload was performed —
the claim as stated predicts that exactly the attachments strictly
before the failing one (here: none) were uploaded. -/
theorem c3_counterexample :
    (processFiles c3Msg [c3EnvCleanupFail] fs0).1 =
      (c3File, some PipelineError.cleanupError) ∧
    uploadEvents (processFiles c3Msg [c3EnvCleanupFail] fs0).2.1 =
      [uploadEvent "C" c3File] := by
  constructor <;> rfl

/-- First attachment of the C3 witness batch (fully successful run). -/
def c3GoodFile : File := ⟨"G1", "http://x/g.zip", "zip"⟩

/-- Second attachment of the C3 witness batch (its transform exits 1). -/
def c3BadFile : File := ⟨"G2", "http://x/h.zip", "zip"⟩

/-- Fully successful outcomes. -/
def c3EnvOk : PipelineEnv := ⟨true, "g1", true, [], 0, [], true, true, true, true⟩

/-- Outcomes failing at the transform (exit status 1). -/
def c3EnvTf : PipelineEnv := ⟨true, "g2", true, [], 1, [], true, true, true, true⟩

/-- The C3 witness batch. -/
def c3WMsg : SlackResponseEventMessage := ⟨"C", [c3GoodFile, c3BadFile]⟩

/-- Witness for amended C3 at a concrete batch: the first attachment is
uploaded, the second fails at its transform, so exactly one upload call
is made. -/
theorem c3_witness :
    uploadEvents (processFiles c3WMsg [c3EnvOk, c3EnvTf] fs0).2.1 =
      [uploadEvent "C" c3GoodFile] := by
  rw [c3_upload_order c3WMsg [c3EnvOk, c3EnvTf] fs0 (by decide)]
  rfl

lemma archiveContents_excludes {file : File} {env : PipelineEnv} {fs1 : FS} {p : String}
    (hp : p ∈ archiveContents file env fs1) :
    underOrEqual (pathToFilesOf file) p = false := by
  obtain ⟨hm, _⟩ := List.mem_filter.mp hp
  simp only [fsPostRemove] at hm
  exact (mem_deleteSrc.mp hm).2

/-- Claim C5: whenever `processFile` makes an archive-build call, the
extracted `downloaded_template` subtree has already been recursively
removed from the staging root, so no entry of the result archive is the
extracted subtree or lies inside it — the result archive never contains
the original downloaded payload. -/
theorem c5_archive_excludes_payload (channel : String) (file : File) (env : PipelineEnv)
    (fs : FS) (d o : String) (c : List String)
    (h : Event.buildArchive d o c ∈ (processFile channel file env fs).2.1)
    (p : String) (hp : p ∈ c) :
    underOrEqual (pathToFilesOf file) p = false := by
  cases hd : env.downloadOk
  case false => simp [processFile, downloadFile, hd] at h
  case true =>
    cases hu : env.unzipOk
    case false => simp [processFile, downloadFile, hd, hu] at h
    case true =>
      by_cases ht : env.transformStatus = 0
      case neg => simp [processFile, downloadFile, hd, hu, ht] at h
      case pos =>
        cases hr : env.removeSubtreeOk
        case false => simp [processFile, downloadFile, hd, hu, ht, hr] at h
        case true =>
          cases hz : env.zipOk <;> cases hup : env.uploadOk <;>
            cases htd : env.teardownOk <;>
            simp [processFile, downloadFile, hd, hu, ht, hr, hz, hup, htd] at h <;>
            exact archiveContents_excludes (h.2.2 ▸ hp)

/-- The attachment of the C5 witness. -/
def c5File : File := ⟨"F5", "http://x/a.zip", "zip"⟩

/-- Fully successful outcomes for the C5 witness: the archive contains
`index.html`, the transform writes a `theme` output subtree. -/
def c5Env : PipelineEnv := ⟨true, "w5", true, ["index.html"], 0, ["theme"], true, true, true, true⟩

/-- Witness for C5 at a concrete run: the archive-build call packs only
`/tmpF5/theme`, which is not the extracted subtree nor inside it. -/
theorem c5_witness :
    underOrEqual (pathToFilesOf c5File) "/tmpF5/theme" = false :=
  c5_archive_excludes_payload "C" c5File c5Env fs0 "/tmpF5" "/tmpF5/result.zip"
    ["/tmpF5/theme"] (by decide) "/tmpF5/theme" (by decide)

/-- Claim C8: when every stage of an attachment's run succeeds
(`processFile` returns no error), the staging root derived from the
attachment's identifier — and everything inside it — no longer exists on
the filesystem when `processFile` returns. -/
theorem c8_staging_removed (channel : String) (file : File) (env : PipelineEnv) (fs : FS)
    (h : envSucceeds env = true) :
    (processFile channel file env fs).1.2 = none ∧
    ∀ p ∈ ((processFile channel file env fs).2.2).paths,
      underOrEqual (srcOf file) p = false := by
  obtain ⟨hd, hu, ht, hr, hz, hup, htd⟩ := envSucceeds_flags h
  constructor
  · simp [processFile, downloadFile, hd, hu, ht, hr, hz, hup, htd]
  · intro p hp
    simp [processFile, downloadFile, hd, hu, ht, hr, hz, hup, htd, mem_deleteSrc] at hp
    simpa using hp.2

/-- The attachment of the C8 witness. -/
def c8File : File := ⟨"F8", "http://x/a.zip", "zip"⟩

/-- Fully successful outcomes for the C8 witness. -/
def c8Env : PipelineEnv := ⟨true, "w8", true, ["index.html"], 0, ["theme"], true, true, true, true⟩

/-- Witness for C8 at a concrete fully successful run. -/
theorem c8_witness :
    (processFile "C" c8File c8Env fs0).1.2 = none ∧
    underOrEqual (srcOf c8File) "/tmp/devbot-w8.zip" = false :=
  ⟨(c8_staging_removed "C" c8File c8Env fs0 (by decide)).1,
   (c8_staging_removed "C" c8File c8Env fs0 (by decide)).2 "/tmp/devbot-w8.zip" (by decide)⟩

/-- Claim C10: once the download step succeeds, the temporary
`devbot-*.zip` file it created in the OS temp directory is distinct from
the staging root and is never deleted by the pipeline — it still exists
when `processFile` returns, on the fully successful path and on every
failure path. The distinctness hypotheses record that the randomized
temp-file name does not collide with the staging root or its extracted
subtree. -/
theorem c10_tmpfile_survives (channel : String) (file : File) (env : PipelineEnv) (fs : FS)
    (hd : env.downloadOk = true)
    (h1 : underOrEqual (srcOf file) (tmpNameOf env) = false)
    (h2 : underOrEqual (pathToFilesOf file) (tmpNameOf env) = false) :
    tmpNameOf env ≠ srcOf file ∧
    tmpNameOf env ∈ ((processFile channel file env fs).2.2).paths := by
  constructor
  · intro he
    rw [underOrEqual] at h1
    simp [he] at h1
  · cases hu : env.unzipOk <;> by_cases ht : env.transformStatus = 0 <;>
      cases hr : env.removeSubtreeOk <;> cases hz : env.zipOk <;>
      cases hup : env.uploadOk <;> cases htd : env.teardownOk <;>
      simp [processFile, downloadFile, fsPostRemove, fsPostTransform, fsPostUnzip,
        hd, hu, ht, hr, hz, hup, htd, mem_add, mem_addAll, mem_deleteSrc, h1, h2, FS.add]

/-- The attachment of the C10 witness. -/
def c10File : File := ⟨"FA", "http://x/a.zip", "zip"⟩

/-- Fully successful outcomes for the C10 witness. -/
def c10Env : PipelineEnv := ⟨true, "wa", true, ["index.html"], 0, ["theme"], true, true, true, true⟩

/-- Witness for C10 at a concrete fully successful run: even after the
staging root's teardown, `/tmp/devbot-wa.zip` still exists. -/
theorem c10_witness :
    tmpNameOf c10Env ≠ srcOf c10File ∧
    tmpNameOf c10Env ∈ ((processFile "C" c10File c10Env fs0).2.2).paths :=
  c10_tmpfile_survives "C" c10File c10Env fs0 rfl (by decide) (by decide)

/-! ### Archive extraction (`helper.Unzip`), modelled from the spec -/

/-- Split a path into `/`-separated components. -/
def splitComps : List Char → List Char → List String
  | [], acc => [String.mk acc.reverse]
  | c :: rest, acc =>
    if c = '/' then String.mk acc.reverse :: splitComps rest []
    else splitComps rest (c :: acc)

/-- Resolve the components of a relative path against a depth counter: a
`..` at depth zero climbs out of the destination directory. -/
def escapesAt : List String → Nat → Bool
  | [], _ => false
  | comp :: rest, depth =>
    if comp = ".." then
      (if depth = 0 then true else escapesAt rest (depth - 1))
    else if comp = "." || comp = "" then escapesAt rest depth
    else escapesAt rest (depth + 1)

/-- An archive entry name whose path escapes the extraction destination
directory (e.g. `../../etc/passwd`). -/
def entryEscapes (name : String) : Bool :=
  escapesAt (splitComps name.toList []) 0

/-- Modelled from the spec: `helper.Unzip` itself is not among the
provided source files (only its call site in `processFile` is). Spec
§4.3 and §8 require that an archive entry with a path that escapes the
destination directory is rejected by extraction with an error and is not
written outside the destination; entries are materialized one by one
under the destination until the offending entry is met. Returns the
written paths and the error, if any. -/
def Unzip (dest : String) : List String → List String → List String × Option String
  | [], written => (written.reverse, none)
  | e :: rest, written =>
    if entryEscapes e then (written.reverse, some "illegal file path")
    else Unzip dest rest ((dest ++ "/" ++ e) :: written)

lemma Unzip_go (dest : String) (entries : List String) (written : List String) :
    ((∃ e ∈ entries, entryEscapes e = true) →
      ((Unzip dest entries written).2).isSome = true) ∧
    (∀ p ∈ (Unzip dest entries written).1,
      p ∈ written ∨ ∃ e, entryEscapes e = false ∧ p = dest ++ "/" ++ e) := by
  induction entries generalizing written with
  | nil =>
    constructor
    · rintro ⟨e, he, _⟩
      simp at he
    · intro p hp
      simp [Unzip] at hp
      exact Or.inl hp
  | cons e rest ih =>
    cases hesc : entryEscapes e with
    | true =>
      constructor
      · intro _
        simp [Unzip, hesc]
      · intro p hp
        simp [Unzip, hesc] at hp
        exact Or.inl hp
    | false =>
      constructor
      · rintro ⟨e1, he1, hesc1⟩
        rcases List.mem_cons.mp he1 with heq | hin
        · rw [heq] at hesc1
          rw [hesc1] at hesc
          cases hesc
        · simpa [Unzip, hesc] using
            (ih ((dest ++ "/" ++ e) :: written)).1 ⟨e1, hin, hesc1⟩
      · intro p hp
        simp only [Unzip, hesc] at hp
        rcases (ih ((dest ++ "/" ++ e) :: written)).2 p (by simpa using hp) with hw | hr
        · rcases List.mem_cons.mp hw with heq | hin
          · exact Or.inr ⟨e, hesc, heq⟩
          · exact Or.inl hin
        · exact Or.inr hr

/-- Claim C2: extraction of an archive containing an entry whose path
escapes the destination directory fails with an error, and — whatever
the archive's other contents — every path extraction writes lies under
the destination directory (it is `dest ++ "/" ++ e` for a non-escaping
entry `e`). -/
theorem c2_unzip_rejects_traversal (dest : String) (entries : List String)
    (h : ∃ e ∈ entries, entryEscapes e = true) :
    ((Unzip dest entries []).2).isSome = true ∧
    ∀ p ∈ (Unzip dest entries []).1,
      ∃ e, entryEscapes e = false ∧ p = dest ++ "/" ++ e := by
  obtain ⟨herr, hwr⟩ := Unzip_go dest entries []
  refine ⟨herr h, fun p hp => ?_⟩
  rcases hwr p hp with hw | hr
  · simp at hw
  · exact hr

/-- Witness for C2: an archive holding `a.txt` and `../../etc/passwd`
is rejected, and the single path written before the rejection,
`/tmpF2/downloaded_template/a.txt`, lies under the destination. -/
theorem c2_witness :
    ((Unzip "/tmpF2/downloaded_template" ["a.txt", "../../etc/passwd"] []).2).isSome = true :=
  (c2_unzip_rejects_traversal "/tmpF2/downloaded_template" ["a.txt", "../../etc/passwd"]
    ⟨"../../etc/passwd", by decide, by decide⟩).1

end Devbot
